import Mathlib

/-!
Verification development for `src/proxy_menu.py` (mycroft440/proxy_menu).

The file shallowly embeds the tunneling core of the script:
byte-string helpers (`bytes.find`, `bytes.lower`, `int(...)`,
`bytes.decode('utf-8', errors='ignore')`), the `ConnectionHandler`
state machine (`run`, `process_request`, `findHeader`,
`connect_target`, `method_CONNECT`, `doCONNECT`), the `Server`
bind/accept loop, and the menu-level `start_proxy_port` /
`stop_proxy_port` transitions on the `active_servers` mapping.

Byte strings are `List Nat` (byte values).  OS effects are events in a
trace; OS outcomes the program merely observes (data returned by
`recv`, success of `connect`, readiness reported by `select`) are
oracle inputs.  Python exceptions raised by OS calls that the script
catches are represented by the oracle shapes noted at each definition.
-/

namespace ProxyMenu

/-- Byte values of an ASCII Lean string literal (all source literals are ASCII). -/
def strBytes (s : String) : List Nat := s.toList.map Char.toNat

/-- `bytes.lower` on one byte: ASCII `A`–`Z` maps to `a`–`z`, all else fixed. -/
def pyLowerByte (b : Nat) : Nat := if 65 ≤ b ∧ b ≤ 90 then b + 32 else b

/-- Python `bytes.lower()`: byte-wise ASCII lowercasing. -/
def pyLower (bs : List Nat) : List Nat := bs.map pyLowerByte

/-- Python `haystack.find(pattern)`: index of the first occurrence, `none` for `-1`. -/
def bfind : List Nat → List Nat → Option Nat
  | h, p =>
    if p.isPrefixOf h then some 0
    else
      match h with
      | [] => none
      | _ :: t => (bfind t p).map (· + 1)

/-- Python `pattern in haystack` for bytes/str (substring containment). -/
def containsSub (h p : List Nat) : Bool := (bfind h p).isSome

/-- ASCII decimal digit. -/
def isDigit (b : Nat) : Bool := 48 ≤ b && b ≤ 57

/-- Bytes Python's `int(...)` strips as whitespace (space, \t, \n, \v, \f, \r). -/
def isSpaceByte (b : Nat) : Bool :=
  b = 32 || b = 9 || b = 10 || b = 11 || b = 12 || b = 13

/-- Digit body of an `int(...)` literal: nonempty, digits with single
underscores strictly between digits (CPython's grouping rule). -/
def validUDigits (bs : List Nat) : Bool :=
  !bs.isEmpty
    && bs.all (fun b => isDigit b || b = 95)
    && isDigit (bs.headD 0)
    && isDigit (bs.getLastD 0)
    && !(containsSub bs [95, 95])

/-- Numeric value of a digits-and-underscores body. -/
def uVal (bs : List Nat) : Nat :=
  (bs.filter isDigit).foldl (fun acc b => acc * 10 + (b - 48)) 0

/-- ASCII phase of CPython's `int(str)`: strip `Py_ISSPACE` whitespace,
optional single `+`/`-` sign, digits-and-underscores body; `none` models
the `ValueError`.  `int()` runs this on the output of the decimal-and-space
transform below. -/
def pyIntAscii (bs : List Nat) : Option Int :=
  let core := ((bs.dropWhile isSpaceByte).reverse.dropWhile isSpaceByte).reverse
  match core with
  | 43 :: rest => if validUDigits rest then some (Int.ofNat (uVal rest)) else none
  | 45 :: rest => if validUDigits rest then some (-(Int.ofNat (uVal rest))) else none
  | _ => if validUDigits core then some (Int.ofNat (uVal core)) else none

/-- First code point (decimal value 0) of each run of ten Unicode decimal
digits (category `Nd`), per the Unicode database of CPython 3.11: within a
run, the decimal value of a digit is its offset from the run's start. -/
def ndDigitStarts : List Nat :=
  [48, 1632, 1776, 1984, 2406, 2534, 2662, 2790, 2918, 3046, 3174, 3302,
   3430, 3558, 3664, 3792, 3872, 4160, 4240, 6112, 6160, 6470, 6608, 6784,
   6800, 6992, 7088, 7232, 7248, 42528, 43216, 43264, 43472, 43504, 43600,
   44016, 65296, 66720, 68912, 69734, 69872, 69942, 70096, 70384, 70736,
   70864, 71248, 71360, 71472, 71904, 72016, 72784, 73040, 73120, 92768,
   92864, 93008, 120782, 120792, 120802, 120812, 120822, 123200, 123632,
   125264, 130032]

/-- `Py_UNICODE_TODECIMAL`: the decimal value of a Unicode decimal digit,
`none` for every other code point. -/
def pyDigitVal (c : Nat) : Option Nat :=
  match ndDigitStarts.find? (fun s => s ≤ c && c ≤ s + 9) with
  | some s => some (c - s)
  | none => none

/-- The non-ASCII code points `Py_UNICODE_ISSPACE` accepts (NEL, NBSP,
Ogham space mark, the U+2000 block, line/paragraph separators, narrow
no-break space, medium mathematical space, ideographic space). -/
def uniSpaces : List Nat :=
  [133, 160, 5760, 8192, 8193, 8194, 8195, 8196, 8197, 8198, 8199, 8200,
   8201, 8202, 8232, 8233, 8239, 8287, 12288]

/-- One code point of CPython's `_PyUnicode_TransformDecimalAndSpaceToASCII`
(run by `int(str)` before parsing): a code point below 127 is kept, a
non-ASCII Unicode space becomes `' '`, a non-ASCII Unicode decimal digit
becomes the ASCII digit of the same value, and anything else makes the
conversion fail (CPython substitutes `'?'`, which the ASCII parser then
always rejects, so the observable result — `ValueError` — is the same). -/
def pyTransformChar (c : Nat) : Option Nat :=
  if c < 127 then some c
  else if c ∈ uniSpaces then some 32
  else
    match pyDigitVal c with
    | some d => some (48 + d)
    | none => none

/-- The transform applied to a whole string, failing if any code point does. -/
def pyTransformDecimal : List Nat → Option (List Nat)
  | [] => some []
  | c :: cs =>
    match pyTransformChar c, pyTransformDecimal cs with
    | some b, some bs => some (b :: bs)
    | _, _ => none

/-- Python `int(s)` on a decimal string of code points: CPython first maps
Unicode decimal digits and Unicode whitespace to ASCII, then parses the
ASCII string (whitespace strip, optional sign, digit body with single
underscores between digits); `none` models the `ValueError`. -/
def pyInt (cs : List Nat) : Option Int :=
  match pyTransformDecimal cs with
  | none => none
  | some bs => pyIntAscii bs

/-- UTF-8 continuation byte. -/
def isContByte (b : Nat) : Bool := 128 ≤ b && b ≤ 191

/-- First-continuation range of a 3-byte lead (E0 ⇒ A0–BF, ED ⇒ 80–9F, else 80–BF). -/
def cont3Ok (b1 b2 : Nat) : Bool :=
  if b1 = 224 then 160 ≤ b2 && b2 ≤ 191
  else if b1 = 237 then 128 ≤ b2 && b2 ≤ 159
  else isContByte b2

/-- First-continuation range of a 4-byte lead (F0 ⇒ 90–BF, F4 ⇒ 80–8F, else 80–BF). -/
def cont4Ok (b1 b2 : Nat) : Bool :=
  if b1 = 240 then 144 ≤ b2 && b2 ≤ 191
  else if b1 = 244 then 128 ≤ b2 && b2 ≤ 143
  else isContByte b2

/-- Python `bytes.decode('utf-8', errors='ignore')`: code points of the valid
sequences, skipping the maximal subpart of each invalid sequence, dropping a
truncated sequence at the end of input. -/
def pyDecodeUtf8Ignore : List Nat → List Nat
  | [] => []
  | b1 :: rest =>
    if b1 < 128 then b1 :: pyDecodeUtf8Ignore rest
    else if b1 < 194 then pyDecodeUtf8Ignore rest
    else if b1 ≤ 223 then
      match rest with
      | [] => []
      | b2 :: r2 =>
        if isContByte b2 then ((b1 - 192) * 64 + (b2 - 128)) :: pyDecodeUtf8Ignore r2
        else pyDecodeUtf8Ignore (b2 :: r2)
    else if b1 ≤ 239 then
      match rest with
      | [] => []
      | b2 :: r2 =>
        if cont3Ok b1 b2 then
          match r2 with
          | [] => []
          | b3 :: r3 =>
            if isContByte b3 then
              ((b1 - 224) * 4096 + (b2 - 128) * 64 + (b3 - 128)) :: pyDecodeUtf8Ignore r3
            else pyDecodeUtf8Ignore (b3 :: r3)
        else pyDecodeUtf8Ignore (b2 :: r2)
    else if b1 ≤ 244 then
      match rest with
      | [] => []
      | b2 :: r2 =>
        if cont4Ok b1 b2 then
          match r2 with
          | [] => []
          | b3 :: r3 =>
            if isContByte b3 then
              match r3 with
              | [] => []
              | b4 :: r4 =>
                if isContByte b4 then
                  ((b1 - 240) * 262144 + (b2 - 128) * 4096 + (b3 - 128) * 64 + (b4 - 128))
                    :: pyDecodeUtf8Ignore r4
                else pyDecodeUtf8Ignore (b4 :: r4)
            else pyDecodeUtf8Ignore (b3 :: r3)
        else pyDecodeUtf8Ignore (b2 :: r2)
    else pyDecodeUtf8Ignore rest

/-! ### Constants of the script (lines 9–24 of `proxy_menu.py`) -/

/-- `PASS = ''` (line 9). -/
def PASS : String := ""

/-- `TIMEOUT = 60` (line 12): idle `select` rounds before `doCONNECT` gives up. -/
def TIMEOUT : Nat := 60

/-- `DEFAULT_HOST = "127.0.0.1:22"` (line 13). -/
def DEFAULT_HOST : String := "127.0.0.1:22"

/-- `RESPONSE_WS = b'HTTP/1.1 101 Switching Protocols\r\n\r\n'` (line 22). -/
def RESPONSE_WS : List Nat := strBytes "HTTP/1.1 101 Switching Protocols\r\n\r\n"

/-- `RESPONSE_HTTP = b'HTTP/1.1 200 Connection established\r\n\r\n'` (line 23). -/
def RESPONSE_HTTP : List Nat := strBytes "HTTP/1.1 200 Connection established\r\n\r\n"

/-- `RESPONSE_ERROR = b'HTTP/1.1 502 Bad Gateway\r\n\r\n'` (line 24). -/
def RESPONSE_ERROR : List Nat := strBytes "HTTP/1.1 502 Bad Gateway\r\n\r\n"

/-! ### `ConnectionHandler.findHeader` (lines 181–187) -/

/-- `findHeader(head, header)`: slice between the first `header + b': '` and
the next `b'\r\n'`, `b''` when either `find` returns `-1`. -/
def findHeader (head header : List Nat) : List Nat :=
  match bfind head (header ++ strBytes ": ") with
  | none => []
  | some aux =>
    let head2 := head.drop (aux + header.length + 2)
    match bfind head2 (strBytes "\r\n") with
    | none => []
    | some aux2 => head2.take aux2

/-! ### Event traces

OS interactions of one `ConnectionHandler` as a trace.  `recvClient d` is a
completed `self.client.recv(...)` returning `d` (`[]` = peer EOF);
`sendClient` is `sendall`/`send` to the client; `connect h p` is the
`getaddrinfo`/`connect` attempt of `connect_target`; `sendTarget` /
`recvTarget` are the tunnel's target-socket operations; `logErr` is the
`printLog` in `run`'s `except`; `closeConn` is the `finally` `self.close()`.
An OS call that raises instead of returning is caught by `run`'s blanket
`except` and only produces `logErr` + `closeConn`; the oracle inputs below
therefore model the completed calls. -/

inductive Ev : Type
  | recvClient (data : List Nat)
  | sendClient (data : List Nat)
  | connect (host : List Nat) (port : Int)
  | recvTarget (data : List Nat)
  | sendTarget (data : List Nat)
  | logErr
  | closeConn
deriving DecidableEq

/-- One round of `select.select` in `doCONNECT`: whether the exceptional
list was nonempty and which of `[client, target]` were readable. -/
structure SelStep where
  selErr : Bool
  rClient : Bool
  rTarget : Bool
deriving DecidableEq

/-- Oracle inputs of one accepted connection: results of the client reads
(`peek` for `recv(1024, MSG_PEEK)`, `buf` for the `recv(BUFLEN)` into
`client_buffer`, `splitBuf` for the discarded `X-Split` read), OS success of
`connect_target`, and the tunnel oracles: a finite prefix of `select`
behaviour, the successive client-side and target-side `recv` results, and
for each target chunk the byte count the unretried `client.send` accepts. -/
structure ConnInput where
  peek : List Nat
  buf : List Nat
  splitBuf : List Nat
  connectOk : Bool
  schedule : List SelStep
  clientChunks : List (List Nat)
  targetChunks : List (List Nat × Nat)

/-! ### `ConnectionHandler.doCONNECT` (lines 213–237) -/

/-- Mutable state of the `doCONNECT` loop: pending oracle chunks, the idle
counter `count`, and the `error` flag. -/
structure TunState where
  cs : List (List Nat)
  ts : List (List Nat × Nat)
  count : Nat
  error : Bool

/-- One iteration of the `while` body of `doCONNECT`: `count += 1`;
`select`; `if err: error = True`; `for sock in recv` — client first, target
second, an empty read sets `error` and breaks —; data from the client goes
whole to `target.sendall`, data from the target goes to `client.send`,
which may deliver only a prefix (`take a`); any forwarded data resets
`count`; finally `if count > TIMEOUT: error = True`. -/
def tunnelStep (st : TunState) (step : SelStep) : List Ev × TunState :=
  let count1 := st.count + 1
  let error1 := st.error || step.selErr
  -- client side of the for-loop
  let cData := st.cs.headD []
  let (evC, cs2, countC, errorC, broke) :=
    if step.rClient then
      if cData.isEmpty then ([Ev.recvClient []], st.cs.tail, count1, true, true)
      else ([Ev.recvClient cData, Ev.sendTarget cData], st.cs.tail, 0, error1, false)
    else ([], st.cs, count1, error1, false)
  -- target side of the for-loop (skipped when the client side broke)
  let tData := st.ts.headD ([], 0)
  let (evT, ts2, countT, errorT) :=
    if step.rTarget && !broke then
      if tData.1.isEmpty then ([Ev.recvTarget []], st.ts.tail, countC, true)
      else ([Ev.recvTarget tData.1, Ev.sendClient (tData.1.take tData.2)],
            st.ts.tail, 0, errorC)
    else ([], st.ts, countC, errorC)
  let errorF := errorT || decide (countT > TIMEOUT)
  (evC ++ evT, ⟨cs2, ts2, countT, errorF⟩)

/-- The `while not error` loop of `doCONNECT`, driven by a finite prefix of
`select` outcomes (`shutdown_requested` stays false while a connection is
served). -/
def runTunnel : TunState → List SelStep → List Ev
  | _, [] => []
  | st, step :: rest =>
    if st.error then []
    else
      let (evs, st2) := tunnelStep st step
      evs ++ runTunnel st2 rest

/-- `doCONNECT` entered with fresh loop state (`count = 0`, `error = False`). -/
def doCONNECT (inp : ConnInput) : List Ev :=
  runTunnel ⟨inp.clientChunks, inp.targetChunks, 0, false⟩ inp.schedule

/-! ### `ConnectionHandler.connect_target` (lines 189–202) -/

/-- Result of `connect_target`: `True`, `False`, or an escaped exception
(`int(...)` raising `ValueError` leaves `port` unbound, so the `except`
handler's f-string raises `NameError`, which propagates to `run`). -/
inductive ConnectRes : Type
  | ok
  | failed
  | raised
deriving DecidableEq

/-- Host/port split of `connect_target`: `i = host.find(':')`;
`port = int(host[i+1:]) if i != -1 else 80`; `host = host[:i]`.
`none` models the raising branch. -/
def parseHostPort (host : List Nat) : Option (List Nat × Int) :=
  match bfind host [58] with
  | none => some (host, 80)
  | some i => (pyInt (host.drop (i + 1))).map fun p => (host.take i, p)

/-- `connect_target(host)` on the decoded host string: parse, then attempt
the outbound connection, whose OS success is the oracle `osOk`. -/
def connect_target (host : List Nat) (osOk : Bool) : List Ev × ConnectRes :=
  match parseHostPort host with
  | none => ([], ConnectRes.raised)
  | some (h, p) => ([Ev.connect h p], if osOk then ConnectRes.ok else ConnectRes.failed)

/-! ### `ConnectionHandler.method_CONNECT` (lines 204–211) and
`process_request` (lines 159–179) -/

/-- `method_CONNECT(path, send_200_ok)`: on a successful connect, send
`RESPONSE_HTTP` when `send_200_ok` and tunnel; on failure send
`RESPONSE_ERROR`.  The `Bool` is "an exception escaped". -/
def method_CONNECT (path : List Nat) (send_200_ok : Bool) (inp : ConnInput) :
    List Ev × Bool :=
  let ct := connect_target path inp.connectOk
  match ct.2 with
  | ConnectRes.ok =>
      (ct.1 ++ (if send_200_ok then [Ev.sendClient RESPONSE_HTTP] else []) ++ doCONNECT inp,
       false)
  | ConnectRes.failed => (ct.1 ++ [Ev.sendClient RESPONSE_ERROR], false)
  | ConnectRes.raised => (ct.1, true)

/-- `b'upgrade: websocket' in bs.lower()`: the script's websocket test,
applied to the peek buffer in `run` and to `client_buffer` in
`process_request` (line 177). -/
def wsIn (bs : List Nat) : Bool := containsSub (pyLower bs) (strBytes "upgrade: websocket")

/-- The `hostPort` of `process_request` (lines 160–162): the `X-Real-Host`
header value, or `DEFAULT_HOST` encoded when the header is absent/empty. -/
def hostPortOf (buf : List Nat) : List Nat :=
  let h := findHeader buf (strBytes "X-Real-Host")
  if h.isEmpty then strBytes DEFAULT_HOST else h

/-- Whether `process_request` performs the extra discarded read
(line 164–165): the `X-Split` header is present with a nonempty value. -/
def splitRequested (buf : List Nat) : Bool :=
  !(findHeader buf (strBytes "X-Split")).isEmpty

/-- `process_request(self)` acting on `client_buffer = buf`: `X-Real-Host`
header or `DEFAULT_HOST`, one discarded `recv` when `X-Split` is present,
password check against `PASS` (the constant `''`), then `method_CONNECT`
with `send_200_ok = b'upgrade: websocket' not in buf.lower()`. -/
def process_request (buf : List Nat) (inp : ConnInput) : List Ev × Bool :=
  let splitEvs := if splitRequested buf then [Ev.recvClient inp.splitBuf] else []
  let passwd := findHeader buf (strBytes "X-Pass")
  let hostPort_str := pyDecodeUtf8Ignore (hostPortOf buf)
  let allow :=
    if PASS.length = 0 then true
    else pyDecodeUtf8Ignore passwd = strBytes PASS
  if allow then
    let mc := method_CONNECT hostPort_str (!wsIn buf) inp
    (splitEvs ++ mc.1, mc.2)
  else
    (splitEvs ++ [Ev.sendClient (strBytes "HTTP/1.1 400 WrongPass!\r\n\r\n")], false)

/-! ### `ConnectionHandler.run` (lines 137–157) -/

/-- `run(self)`: peek; return at once on an empty peek; send `RESPONSE_WS`
iff the peeked bytes contain `b'upgrade: websocket'` (lowercased); read
`client_buffer`; process it when nonempty; an escaped exception is logged;
`finally: self.close()`. -/
def run_handler (inp : ConnInput) : List Ev :=
  if inp.peek.isEmpty then [Ev.closeConn]
  else
    let pre := if wsIn inp.peek then [Ev.sendClient RESPONSE_WS] else []
    let pr := if !inp.buf.isEmpty then process_request inp.buf inp else ([], false)
    pre ++ [Ev.recvClient inp.buf] ++ pr.1
      ++ (if pr.2 then [Ev.logErr] else []) ++ [Ev.closeConn]

/-! ### Trace observations -/

/-- Payloads of the writes to the client, in order. -/
def clientWrites (t : List Ev) : List (List Nat) :=
  t.filterMap fun e => match e with | Ev.sendClient d => some d | _ => none

/-- Payloads of the writes to the target, in order. -/
def targetWrites (t : List Ev) : List (List Nat) :=
  t.filterMap fun e => match e with | Ev.sendTarget d => some d | _ => none

/-- Payloads of the completed reads from the client, in order. -/
def clientReads (t : List Ev) : List (List Nat) :=
  t.filterMap fun e => match e with | Ev.recvClient d => some d | _ => none

/-- Payloads of the completed reads from the target, in order. -/
def targetReads (t : List Ev) : List (List Nat) :=
  t.filterMap fun e => match e with | Ev.recvTarget d => some d | _ => none

/-- Outbound connection attempts, in order. -/
def connectsOf (t : List Ev) : List (List Nat × Int) :=
  t.filterMap fun e => match e with | Ev.connect h p => some (h, p) | _ => none

/-- Bytes delivered to the upstream target over the whole trace. -/
def deliveredToTarget (t : List Ev) : List Nat := (targetWrites t).flatten

/-- Bytes consumed from the client stream over the whole trace. -/
def consumedFromClient (t : List Ev) : List Nat := (clientReads t).flatten

/-! ### `Server.run` (lines 42–71): bind phase and accept loop -/

/-- Socket address family of a bind attempt.  The script only ever uses
`socket.AF_INET`; `v6` exists so that statements about IPv6/dual-stack
binding can be expressed. -/
inductive SockFamily : Type
  | v4
  | v6
deriving DecidableEq

/-- Operator-visible log lines of `Server`.  `startErr` is the
`"Erro ao iniciar o servidor"` message of the bind `except`. -/
inductive SrvLog : Type
  | startErr
deriving DecidableEq

/-- Outcome of one blocking `accept` call: a `socket.timeout`, another
`socket.error`, or an accepted connection (numbered by the oracle). -/
inductive AcceptEv : Type
  | timeout
  | sockErr
  | conn (id : Nat)
deriving DecidableEq

/-- `conn id` test, for stating loop-termination properties. -/
def AcceptEv.isSockErr : AcceptEv → Bool
  | AcceptEv.sockErr => true
  | _ => false

/-- Connection id of an `AcceptEv`, if any. -/
def AcceptEv.connId : AcceptEv → Option Nat
  | AcceptEv.conn i => some i
  | _ => none

/-- The accept loop (lines 56–67): `socket.timeout` ⇒ `continue`;
any other `socket.error` ⇒ `break`; an accepted connection gets a
`ConnectionHandler` and the loop continues.  Returns the ids handled, in
order, for a finite prefix of accept outcomes (`self.running` and
`shutdown_requested` untouched meanwhile). -/
def acceptLoop : List AcceptEv → List Nat
  | [] => []
  | AcceptEv.timeout :: rest => acceptLoop rest
  | AcceptEv.sockErr :: _ => []
  | AcceptEv.conn i :: rest => i :: acceptLoop rest

/-- Observable result of `Server.run`: the bind attempts made (in order,
with their family), the `running` flag after the setup phase, the log
lines, whether the socket created by the failed setup was closed before
returning, and the connections handled by the accept loop. -/
structure ServerRunResult where
  attempts : List SockFamily
  running : Bool
  logs : List SrvLog
  failSockClosed : Bool
  handled : List Nat
deriving DecidableEq

/-- `Server.run` (lines 42–71): create one `AF_INET` socket, set options and
bind; any exception is logged, `running` is set `False` and the method
returns — without closing the just-created socket (the `finally` that
closes `self.soc` belongs to the accept-loop `try`, which is never
entered).  On success the accept loop runs.  `bindOk` is the OS outcome of
the setup calls; `accepts` a finite prefix of accept outcomes. -/
def Server_run (bindOk : Bool) (accepts : List AcceptEv) : ServerRunResult :=
  if bindOk then
    { attempts := [SockFamily.v4], running := true, logs := [],
      failSockClosed := true, handled := acceptLoop accepts }
  else
    { attempts := [SockFamily.v4], running := false, logs := [SrvLog.startErr],
      failSockClosed := false, handled := [] }

/-! ### `start_proxy_port` (lines 311–337) and `stop_proxy_port`
(lines 339–360) on the `active_servers` mapping

`active_servers` is a dict port ↦ `Server`; only its key set matters to the
claims, modelled as a duplicate-free insertion-ordered list.  The menu I/O
(prompting, messages, `save_state()`) is outside the model; the result
constructor records which branch — hence which message — the call takes.
`bindOk` is `server.running` as observed by the menu thread after
`server.start()`. -/

/-- Branch taken by `start_proxy_port`. -/
inductive OpenResult : Type
  | alreadyInUse
  | invalidPort
  | started
  | startFailed
deriving DecidableEq

/-- `start_proxy_port` for a port the operator typed: `port in
active_servers` ⇒ "já está em uso"; out-of-range ⇒ "Porta inválida";
otherwise a `Server` is started and stored iff it reports `running`. -/
def start_proxy_port (port : Nat) (bindOk : Bool) (active : List Nat) :
    List Nat × OpenResult :=
  if port ∈ active then (active, OpenResult.alreadyInUse)
  else if ¬(0 < port ∧ port < 65536) then (active, OpenResult.invalidPort)
  else if bindOk then (active ++ [port], OpenResult.started)
  else (active, OpenResult.startFailed)

/-- `stop_proxy_port`: `active_servers.pop(port).close()` when present
(`true` = the success branch ran), else the "Não há proxy ativo" branch
(`false`), with the mapping untouched.  Total: neither branch raises. -/
def stop_proxy_port (port : Nat) (active : List Nat) : List Nat × Bool :=
  if port ∈ active then (active.erase port, true) else (active, false)

/-! ### `ConnectionHandler.close` (lines 122–135) -/

/-- The two close flags of a handler.  `clientClosed` starts `False`,
`targetClosed` starts `True` and is set `False` only after `self.target`
is assigned (line 196–197), so `targetClosed = false` implies the target
attribute exists. -/
structure HState where
  clientClosed : Bool
  targetClosed : Bool
deriving DecidableEq

/-- OS calls a `close()` invocation can make. -/
inductive CloseOp : Type
  | shutdownClient
  | closeClient
  | shutdownTarget
  | closeTarget
deriving DecidableEq

/-- `ConnectionHandler.close`: for each socket, when its flag is unset, try
`shutdown` then `close` — a raising `shutdown` (oracle `cShutFails` /
`tShutFails`) skips the `close` call, the bare `except: pass` swallows the
exception — and the `finally` sets the flag `True` unconditionally.  Total:
no exception escapes. -/
def ConnectionHandler_close (s : HState) (cShutFails tShutFails : Bool) :
    HState × List CloseOp :=
  let opsC :=
    if !s.clientClosed then
      CloseOp.shutdownClient :: (if cShutFails then [] else [CloseOp.closeClient])
    else []
  let opsT :=
    if !s.targetClosed then
      CloseOp.shutdownTarget :: (if tShutFails then [] else [CloseOp.closeTarget])
    else []
  (⟨true, true⟩, opsC ++ opsT)

/-! ### Concrete scenario inputs used by the claim analyses -/

/-- A client that sends the single byte `"x"`, which the handler consumes
as `client_buffer`; the tunnel then sees nothing. -/
def inpC3 : ConnInput := ⟨strBytes "x", strBytes "x", [], true, [], [], []⟩

/-- A client that closes without sending anything: the peek is empty. -/
def inpC9 : ConnInput := ⟨[], strBytes "never read", strBytes "never read", true,
  [⟨false, true, true⟩], [strBytes "never"], [(strBytes "never", 5)]⟩

/-! ## Lemmas about `bfind` (Python `bytes.find`) -/

theorem isPrefixOf_iff_exists (p h : List Nat) :
    p.isPrefixOf h = true ↔ ∃ t, h = p ++ t := by
  induction p generalizing h with
  | nil => simp [List.isPrefixOf]
  | cons a as ih =>
    cases h with
    | nil => simp [List.isPrefixOf]
    | cons b bs =>
      simp only [List.isPrefixOf, Bool.and_eq_true, beq_iff_eq, ih]
      constructor
      · rintro ⟨rfl, t, rfl⟩
        exact ⟨t, rfl⟩
      · rintro ⟨t, ht⟩
        rw [List.cons_append] at ht
        injection ht with h1 h2
        exact ⟨h1.symm, t, h2⟩

theorem exists_split_cons (a : Nat) (t p : List Nat) :
    (∃ pre post, a :: t = pre ++ p ++ post) ↔
      (∃ post, a :: t = p ++ post) ∨ (∃ pre post, t = pre ++ p ++ post) := by
  constructor
  · rintro ⟨pre, post, hsplit⟩
    cases pre with
    | nil => exact Or.inl ⟨post, by simpa using hsplit⟩
    | cons x xs =>
      rw [List.cons_append, List.cons_append] at hsplit
      injection hsplit with _ h2
      exact Or.inr ⟨xs, post, h2⟩
  · rintro (⟨post, hp⟩ | ⟨pre, post, hp⟩)
    · exact ⟨[], post, by simpa using hp⟩
    · exact ⟨a :: pre, post, by simp [hp]⟩

theorem bfind_pos (h p : List Nat) (hpre : p.isPrefixOf h = true) :
    bfind h p = some 0 := by
  rw [bfind.eq_def]
  simp [hpre]

theorem bfind_nil_of_ne (p : List Nat) (hp : p ≠ []) : bfind [] p = none := by
  rw [bfind.eq_def]
  cases p with
  | nil => simp at hp
  | cons x xs => simp [List.isPrefixOf]

theorem bfind_cons_neg (a : Nat) (t p : List Nat)
    (hpre : ¬ p.isPrefixOf (a :: t) = true) :
    bfind (a :: t) p = (bfind t p).map (· + 1) := by
  rw [bfind.eq_def]
  simp [hpre]

theorem bfind_eq_none_iff (h p : List Nat) :
    bfind h p = none ↔ ¬ ∃ pre post, h = pre ++ p ++ post := by
  induction h with
  | nil =>
    cases p with
    | nil => simp [bfind_pos [] [] (by simp [List.isPrefixOf])]
    | cons x xs => simp [bfind_nil_of_ne (x :: xs) (by simp)]
  | cons a t ih =>
    by_cases hpre : p.isPrefixOf (a :: t) = true
    · rw [bfind_pos _ _ hpre]
      rw [isPrefixOf_iff_exists] at hpre
      obtain ⟨s, hs⟩ := hpre
      constructor
      · intro hfalse
        simp at hfalse
      · intro hno
        exact absurd ⟨[], s, by simpa using hs⟩ hno
    · rw [bfind_cons_neg _ _ _ hpre]
      have hnp : ¬ ∃ post, a :: t = p ++ post := by
        intro ⟨post, hp2⟩
        exact hpre ((isPrefixOf_iff_exists p (a :: t)).mpr ⟨post, hp2⟩)
      rw [show ((bfind t p).map (· + 1) = none) ↔ bfind t p = none from by
        cases bfind t p <;> simp]
      rw [ih]
      simp only [exists_split_cons]
      constructor
      · intro hnt
        exact not_or.mpr ⟨hnp, hnt⟩
      · intro hboth hocc
        exact hboth (Or.inr hocc)

theorem bfind_le_length (h p : List Nat) (i : Nat) (hi : bfind h p = some i) :
    i ≤ h.length := by
  induction h generalizing i with
  | nil =>
    cases p with
    | nil =>
      rw [bfind_pos [] [] (by simp [List.isPrefixOf])] at hi
      injection hi with hi
      omega
    | cons x xs =>
      rw [bfind_nil_of_ne (x :: xs) (by simp)] at hi
      cases hi
  | cons a t ih =>
    by_cases hpre : p.isPrefixOf (a :: t) = true
    · rw [bfind_pos _ _ hpre] at hi
      injection hi with hi
      omega
    · rw [bfind_cons_neg _ _ _ hpre] at hi
      cases hbt : bfind t p with
      | none => simp [hbt] at hi
      | some j =>
        simp only [hbt, Option.map_some] at hi
        have hi2 : j + 1 = i := by simpa using hi
        have := ih j hbt
        simp only [List.length_cons]
        omega

theorem bfind_drop (h p : List Nat) (i : Nat) (hi : bfind h p = some i) :
    ∃ t, h.drop i = p ++ t := by
  induction h generalizing i with
  | nil =>
    cases p with
    | nil =>
      rw [bfind_pos [] [] (by simp [List.isPrefixOf])] at hi
      injection hi with hi
      subst hi
      exact ⟨[], rfl⟩
    | cons x xs =>
      rw [bfind_nil_of_ne (x :: xs) (by simp)] at hi
      cases hi
  | cons a t ih =>
    by_cases hpre : p.isPrefixOf (a :: t) = true
    · rw [bfind_pos _ _ hpre] at hi
      injection hi with hi
      subst hi
      rw [isPrefixOf_iff_exists] at hpre
      simpa using hpre
    · rw [bfind_cons_neg _ _ _ hpre] at hi
      cases hbt : bfind t p with
      | none => simp [hbt] at hi
      | some j =>
        simp only [hbt, Option.map_some] at hi
        have hi2 : j + 1 = i := by simpa using hi
        rw [← hi2]
        simpa using ih j hbt

theorem bfind_first (h p : List Nat) (i : Nat) (hi : bfind h p = some i) :
    ∀ k, k < i → ¬ ∃ t, h.drop k = p ++ t := by
  induction h generalizing i with
  | nil =>
    cases p with
    | nil =>
      rw [bfind_pos [] [] (by simp [List.isPrefixOf])] at hi
      injection hi with hi
      omega
    | cons x xs =>
      rw [bfind_nil_of_ne (x :: xs) (by simp)] at hi
      cases hi
  | cons a t ih =>
    by_cases hpre : p.isPrefixOf (a :: t) = true
    · rw [bfind_pos _ _ hpre] at hi
      injection hi with hi
      omega
    · rw [bfind_cons_neg _ _ _ hpre] at hi
      cases hbt : bfind t p with
      | none => simp [hbt] at hi
      | some j =>
        simp only [hbt, Option.map_some] at hi
        have hi2 : j + 1 = i := by simpa using hi
        intro k hk
        cases k with
        | zero =>
          intro ⟨t', ht'⟩
          exact hpre ((isPrefixOf_iff_exists p (a :: t)).mpr ⟨t', by simpa using ht'⟩)
        | succ k' =>
          have := ih j hbt k' (by omega)
          simpa using this

theorem bfind_decomp (h p : List Nat) (i : Nat) (hi : bfind h p = some i) :
    h = h.take i ++ p ++ (h.drop i).drop p.length := by
  obtain ⟨t, ht⟩ := bfind_drop h p i hi
  have h1 : (h.drop i).drop p.length = t := by rw [ht, List.drop_left]
  rw [h1]
  conv_lhs => rw [← List.take_append_drop i h]
  rw [ht, List.append_assoc]

theorem bfind_take_no_occ (h p : List Nat) (j : Nat) (hp : p ≠ [])
    (hj : bfind h p = some j) : ¬ ∃ pre post, h.take j = pre ++ p ++ post := by
  rintro ⟨pre, post, hsplit⟩
  have hlen : j ≤ h.length := bfind_le_length h p j hj
  have htl : (h.take j).length = j := by simp [List.length_take]; omega
  have hplen : 0 < p.length := by cases p <;> simp_all
  have hprelt : pre.length < j := by
    have := congrArg List.length hsplit
    simp [List.length_append] at this
    omega
  apply bfind_first h p j hj pre.length hprelt
  refine ⟨post ++ h.drop j, ?_⟩
  have hh : h = pre ++ (p ++ (post ++ h.drop j)) := by
    conv_lhs => rw [← List.take_append_drop j h]
    rw [hsplit]
    simp [List.append_assoc]
  calc h.drop pre.length = (pre ++ (p ++ (post ++ h.drop j))).drop pre.length := by
        conv_lhs => rw [hh]
    _ = p ++ (post ++ h.drop j) := List.drop_left _ _

/-! ## Lemmas about the tunnel pump -/

theorem clientWrites_append (l1 l2 : List Ev) :
    clientWrites (l1 ++ l2) = clientWrites l1 ++ clientWrites l2 :=
  List.filterMap_append l1 l2 _

theorem targetWrites_append (l1 l2 : List Ev) :
    targetWrites (l1 ++ l2) = targetWrites l1 ++ targetWrites l2 :=
  List.filterMap_append l1 l2 _

theorem clientReads_append (l1 l2 : List Ev) :
    clientReads (l1 ++ l2) = clientReads l1 ++ clientReads l2 :=
  List.filterMap_append l1 l2 _

theorem targetReads_append (l1 l2 : List Ev) :
    targetReads (l1 ++ l2) = targetReads l1 ++ targetReads l2 :=
  List.filterMap_append l1 l2 _

theorem clientWrites_nil : clientWrites [] = [] := rfl

theorem clientWrites_cons (e : Ev) (l : List Ev) :
    clientWrites (e :: l) =
      match e with
      | Ev.sendClient d => d :: clientWrites l
      | _ => clientWrites l := by
  cases e <;> rfl

theorem targetWrites_nil : targetWrites [] = [] := rfl

theorem targetWrites_cons (e : Ev) (l : List Ev) :
    targetWrites (e :: l) =
      match e with
      | Ev.sendTarget d => d :: targetWrites l
      | _ => targetWrites l := by
  cases e <;> rfl

theorem clientReads_nil : clientReads [] = [] := rfl

theorem clientReads_cons (e : Ev) (l : List Ev) :
    clientReads (e :: l) =
      match e with
      | Ev.recvClient d => d :: clientReads l
      | _ => clientReads l := by
  cases e <;> rfl

theorem targetReads_nil : targetReads [] = [] := rfl

theorem targetReads_cons (e : Ev) (l : List Ev) :
    targetReads (e :: l) =
      match e with
      | Ev.recvTarget d => d :: targetReads l
      | _ => targetReads l := by
  cases e <;> rfl

theorem flatten_filter_nonempty (l : List (List Nat)) :
    (l.filter (fun d => !d.isEmpty)).flatten = l.flatten := by
  induction l with
  | nil => rfl
  | cons d rest ih =>
    by_cases hd : d.isEmpty = true
    · have : d = [] := by cases d <;> simp_all
      simp [this, ih]
    · simp [List.filter_cons, hd, ih]

/-- Within one `tunnelStep`, every nonempty chunk read from the client is
immediately forwarded whole to the target, and nothing else is. -/
theorem tunnelStep_client_to_target (st : TunState) (step : SelStep) :
    targetWrites (tunnelStep st step).1
      = (clientReads (tunnelStep st step).1).filter (fun d => !d.isEmpty) := by
  by_cases hc : step.rClient = true <;>
    by_cases hce : st.cs.head?.getD [] = [] <;>
      by_cases ht : step.rTarget = true <;>
        by_cases hte : (st.ts.head?.getD ([], 0)).1 = [] <;>
          simp [tunnelStep, hc, hce, ht, hte, targetWrites, clientReads]

/-- Within one `tunnelStep`, each write to the client is a `take`-prefix of
the corresponding nonempty chunk read from the target, pairwise in order. -/
theorem tunnelStep_target_to_client (st : TunState) (step : SelStep) :
    List.Forall₂ (fun s r => ∃ k, s = List.take k r)
      (clientWrites (tunnelStep st step).1)
      ((targetReads (tunnelStep st step).1).filter (fun d => !d.isEmpty)) := by
  by_cases hc : step.rClient = true <;>
    by_cases hce : st.cs.head?.getD [] = [] <;>
      by_cases ht : step.rTarget = true <;>
        by_cases hte : (st.ts.head?.getD ([], 0)).1 = [] <;>
          simp [tunnelStep, hc, hce, ht, hte, clientWrites, targetReads] <;>
            exact ⟨(st.ts.head?.getD ([], 0)).2, rfl⟩

/-- Chunk-exact relay, client to target, over a whole tunnel run. -/
theorem runTunnel_client_to_target (sched : List SelStep) (st : TunState) :
    targetWrites (runTunnel st sched)
      = (clientReads (runTunnel st sched)).filter (fun d => !d.isEmpty) := by
  induction sched generalizing st with
  | nil => rfl
  | cons step rest ih =>
    rw [runTunnel]
    by_cases he : st.error = true
    · simp [he, targetWrites, clientReads]
    · rw [if_neg he, targetWrites_append, clientReads_append, List.filter_append,
        tunnelStep_client_to_target, ih]

/-- Prefix-wise relay, target to client, over a whole tunnel run. -/
theorem runTunnel_target_to_client (sched : List SelStep) (st : TunState) :
    List.Forall₂ (fun s r => ∃ k, s = List.take k r)
      (clientWrites (runTunnel st sched))
      ((targetReads (runTunnel st sched)).filter (fun d => !d.isEmpty)) := by
  induction sched generalizing st with
  | nil => simp [runTunnel, clientWrites, targetReads]
  | cons step rest ih =>
    rw [runTunnel]
    by_cases he : st.error = true
    · simp [he, clientWrites, targetReads]
    · rw [if_neg he, clientWrites_append, targetReads_append, List.filter_append]
      exact List.rel_append (tunnelStep_target_to_client st step)
        (ih (tunnelStep st step).2)

theorem run_handler_empty_peek (inp : ConnInput) (h : inp.peek = []) :
    run_handler inp = [Ev.closeConn] := by
  simp [run_handler, h]

theorem run_handler_empty_buf (inp : ConnInput) (hpeek : inp.peek ≠ [])
    (h : inp.buf = []) :
    run_handler inp =
      (if wsIn inp.peek then [Ev.sendClient RESPONSE_WS] else [])
        ++ [Ev.recvClient [], Ev.closeConn] := by
  simp [run_handler, hpeek, h]

theorem run_handler_decomp (inp : ConnInput) (hpeek : inp.peek ≠ [])
    (hbuf : inp.buf ≠ []) :
    run_handler inp =
      (if wsIn inp.peek then [Ev.sendClient RESPONSE_WS] else [])
      ++ [Ev.recvClient inp.buf]
      ++ (if splitRequested inp.buf then [Ev.recvClient inp.splitBuf] else [])
      ++ (match parseHostPort (pyDecodeUtf8Ignore (hostPortOf inp.buf)) with
          | none => [Ev.logErr]
          | some hp =>
              Ev.connect hp.1 hp.2
                :: (if inp.connectOk then
                      (if wsIn inp.buf then [] else [Ev.sendClient RESPONSE_HTTP])
                        ++ doCONNECT inp
                    else [Ev.sendClient RESPONSE_ERROR]))
      ++ [Ev.closeConn] := by
  rcases hpp : parseHostPort (pyDecodeUtf8Ignore (hostPortOf inp.buf)) with _ | ⟨h1, p1⟩ <;>
    by_cases hok : inp.connectOk = true
  all_goals
    simp [run_handler, process_request, method_CONNECT, connect_target, PASS,
      hpeek, hbuf, hpp, hok]
  all_goals (cases hws : wsIn inp.buf <;> simp [hws])

/-! ## Claim C1: the fixed 101-then-200 handshake -/

/-- C3 counterexample: the client of [inpC3] sends the byte `"x"` (consumed
by the handler as `client_buffer`), the tunnel is reached (an upstream
connection is made), yet nothing at all is delivered to the upstream: the
consumed bytes are dropped, not re-injected. -/
theorem c3_counterexample :
    consumedFromClient (run_handler inpC3) = strBytes "x"
      ∧ deliveredToTarget (run_handler inpC3) = []
      ∧ connectsOf (run_handler inpC3) ≠ []
      ∧ strBytes "x" ≠ ([] : List Nat) := by
  decide

/-- C3 (amended): the bytes the handler consumes from the client decompose
as the request buffer, plus the discarded `X-Split` read, plus exactly the
bytes delivered to the upstream — so the request buffer and `X-Split` read
are never forwarded, and only chunks read inside the tunnel are, whole and
in order (each nonempty tunnel read is immediately forwarded unmodified);
symmetrically, each chunk read from the upstream is answered by exactly one
write to the client holding a `take`-prefix of that chunk (the unretried
`send` may truncate), pairwise in order. -/
theorem c3_amended (inp : ConnInput) :
    (consumedFromClient (run_handler inp) =
      if inp.peek = [] then []
      else
        inp.buf
          ++ (if inp.buf ≠ [] ∧ splitRequested inp.buf = true then inp.splitBuf else [])
          ++ deliveredToTarget (run_handler inp))
    ∧ targetWrites (doCONNECT inp)
        = (clientReads (doCONNECT inp)).filter (fun d => !d.isEmpty)
    ∧ List.Forall₂ (fun s r => ∃ k, s = List.take k r)
        (clientWrites (doCONNECT inp))
        ((targetReads (doCONNECT inp)).filter (fun d => !d.isEmpty)) := by
  have htw : targetWrites (doCONNECT inp)
      = (clientReads (doCONNECT inp)).filter (fun d => !d.isEmpty) := by
    rw [doCONNECT]
    exact runTunnel_client_to_target _ _
  have hflat : (targetWrites (doCONNECT inp)).flatten
      = (clientReads (doCONNECT inp)).flatten := by
    rw [htw]
    exact flatten_filter_nonempty _
  refine ⟨?_, htw, ?_⟩
  · by_cases hpeek : inp.peek = []
    · rw [run_handler_empty_peek inp hpeek]
      simp [hpeek, consumedFromClient, clientReads_cons, clientReads_nil]
    · by_cases hbuf : inp.buf = []
      · rw [run_handler_empty_buf inp hpeek hbuf]
        cases hws : wsIn inp.peek <;>
          simp [hpeek, hbuf, hws, consumedFromClient, deliveredToTarget,
            clientReads_append, targetWrites_append, clientReads_cons,
            clientReads_nil, targetWrites_cons, targetWrites_nil]
      · rw [run_handler_decomp inp hpeek hbuf]
        rcases hpp : parseHostPort (pyDecodeUtf8Ignore (hostPortOf inp.buf)) with _ | ⟨h1, p1⟩ <;>
          by_cases hok : inp.connectOk = true <;>
            cases hws : wsIn inp.peek <;> cases hwb : wsIn inp.buf <;>
              by_cases hsp : splitRequested inp.buf = true <;>
                simp [hpeek, hbuf, hpp, hok, hws, hwb, hsp, consumedFromClient,
                  deliveredToTarget, clientReads_append, targetWrites_append,
                  clientReads_cons, clientReads_nil, targetWrites_cons,
                  targetWrites_nil, List.flatten_append, hflat]
  · rw [doCONNECT]
    exact runTunnel_target_to_client _ _

/-! ## Claim C4: listener bind strategy -/

/-- C4 counterexample: with the OS refusing the bind, `Server.run` makes
exactly one bind attempt, an `AF_INET` (IPv4) one — not an IPv6 dual-stack
attempt, no two-socket fallback, no `BindError` — and the socket created by
the failed setup is not closed before returning. -/
theorem c4_counterexample :
    (Server_run false []).attempts = [SockFamily.v4]
      ∧ (Server_run false []).attempts.length = 1
      ∧ SockFamily.v4 ≠ SockFamily.v6
      ∧ (Server_run false []).failSockClosed = false := by
  decide

/-- C4 (amended): `Server.run` always makes exactly one bind attempt, an
IPv4 single-stack one; `running` equals the OS outcome of that attempt; and
on failure the method logs the start error, handles no connection, and
returns without closing the just-created socket and without raising. -/
theorem c4_amended (bindOk : Bool) (accepts : List AcceptEv) :
    (Server_run bindOk accepts).attempts = [SockFamily.v4]
      ∧ (Server_run bindOk accepts).running = bindOk
      ∧ Server_run false accepts
          = { attempts := [SockFamily.v4], running := false,
              logs := [SrvLog.startErr], failSockClosed := false, handled := [] } := by
  cases bindOk <;> simp [Server_run]

/-! ## Claim C5: accept-loop behaviour on accept errors -/

/-- C5 counterexample: one non-timeout `socket.error` on `accept` breaks
the loop — the connection arriving right after it is never handled — and
nothing is logged, contradicting "logged and the loop continues". -/
theorem c5_counterexample :
    (Server_run true [AcceptEv.sockErr, AcceptEv.conn 0]).handled = []
      ∧ (Server_run true [AcceptEv.sockErr, AcceptEv.conn 0]).logs = []
      ∧ ([] : List Nat) ≠ [0] := by
  decide

/-- acceptLoop handles exactly the connections arriving before the first
non-timeout socket error. -/
theorem acceptLoop_eq (accepts : List AcceptEv) :
    acceptLoop accepts
      = (accepts.takeWhile (fun a => !a.isSockErr)).filterMap AcceptEv.connId := by
  induction accepts with
  | nil => rfl
  | cons a rest ih =>
    cases a <;>
      simp [acceptLoop, AcceptEv.isSockErr, AcceptEv.connId, List.takeWhile_cons, ih]

/-- C5 (amended): while running, the accept loop handles exactly the
connections that arrive before the first non-timeout `socket.error`
(timeouts are silently skipped); that first error silently terminates the
loop — nothing after it is handled and no accept error is ever logged. -/
theorem c5_amended (accepts : List AcceptEv) :
    (Server_run true accepts).handled
        = (accepts.takeWhile (fun a => !a.isSockErr)).filterMap AcceptEv.connId
      ∧ (Server_run true accepts).logs = [] := by
  exact ⟨by simp [Server_run, acceptLoop_eq], by simp [Server_run]⟩

/-! ## Claim C6: opening an already-open port -/

/-- C6 counterexample: the first `open(8080)` succeeds and stores the
server, but the second call while it runs takes the "já está em uso" error
branch — it does not report success — though the mapping indeed keeps
exactly one entry for the port. -/
theorem c6_counterexample :
    start_proxy_port 8080 true [] = ([8080], OpenResult.started)
      ∧ start_proxy_port 8080 true [8080] = ([8080], OpenResult.alreadyInUse)
      ∧ OpenResult.alreadyInUse ≠ OpenResult.started
      ∧ ([8080] : List Nat).count 8080 = 1 := by
  decide

/-- C6 (amended): opening a fresh valid port succeeds and stores exactly
one entry for it; a second `open` on the same port while it is active is
rejected with the port-in-use error (it does not return success) and leaves
the mapping unchanged, still with exactly one entry for the port. -/
theorem c6_amended (port : Nat) (bindOk : Bool) (m : List Nat)
    (h1 : 0 < port) (h2 : port < 65536) (h3 : port ∉ m) :
    start_proxy_port port true m = (m ++ [port], OpenResult.started)
      ∧ (m ++ [port]).count port = 1
      ∧ start_proxy_port port bindOk (m ++ [port])
          = (m ++ [port], OpenResult.alreadyInUse) := by
  refine ⟨?_, ?_, ?_⟩
  · simp [start_proxy_port, h1, h2, h3]
  · rw [List.count_append]
    rw [List.count_eq_zero.mpr h3]
    simp
  · simp [start_proxy_port]

/-- C6 witness at port 8080 over the empty mapping. -/
theorem c6_witness :
    start_proxy_port 8080 true [] = ([] ++ [8080], OpenResult.started)
      ∧ (([] : List Nat) ++ [8080]).count 8080 = 1
      ∧ start_proxy_port 8080 true ([] ++ [8080])
          = ([] ++ [8080], OpenResult.alreadyInUse) :=
  c6_amended 8080 true [] (by decide) (by decide) (by decide)

/-! ## Claim C7: closing a port with no active proxy -/

/-- C7: `stop_proxy_port` on a port with no active controller takes the
error-message branch (no proxy was stopped, `false`), changes the mapping
not at all, and raises nothing (the embedding is a total function). -/
theorem c7_stop_missing_port (port : Nat) (m : List Nat) (h : port ∉ m) :
    stop_proxy_port port m = (m, false) := by
  simp [stop_proxy_port, h]

/-- C7 witness at port 999 with only port 80 active. -/
theorem c7_witness :
    stop_proxy_port 999 [80] = ([80], false) :=
  c7_stop_missing_port 999 [80] (by decide)

/-! ## Claim C8: totality and correctness of `findHeader` -/

/-- C8: `findHeader` is total and never slices past the buffer — when the
`header + ": "` pattern does not occur, or no `"\r\n"` follows it, the
result is `b''`; when both delimiters are present (`bfind` returning their
positions), the result is exactly the slice between the first occurrence of
the pattern and the next `"\r\n"`: the input decomposes around it and the
result itself contains no `"\r\n"`. -/
theorem c8_findHeader_total (head header : List Nat) :
    ((¬ ∃ pre post, head = pre ++ (header ++ strBytes ": ") ++ post) →
        findHeader head header = [])
    ∧ ∀ i, bfind head (header ++ strBytes ": ") = some i →
        (((¬ ∃ pre post, head.drop (i + header.length + 2)
              = pre ++ strBytes "\r\n" ++ post) → findHeader head header = [])
        ∧ ∀ j, bfind (head.drop (i + header.length + 2)) (strBytes "\r\n") = some j →
            findHeader head header = (head.drop (i + header.length + 2)).take j
            ∧ head = head.take i ++ (header ++ strBytes ": ")
                ++ ((head.drop (i + header.length + 2)).take j ++ (strBytes "\r\n"
                ++ ((head.drop (i + header.length + 2)).drop j).drop 2))
            ∧ ¬ ∃ pre post, (head.drop (i + header.length + 2)).take j
                = pre ++ strBytes "\r\n" ++ post) := by
  constructor
  · intro habs
    have hnone : bfind head (header ++ strBytes ": ") = none :=
      (bfind_eq_none_iff _ _).mpr habs
    simp [findHeader, hnone]
  · intro i hi
    constructor
    · intro habs
      have hnone : bfind (head.drop (i + header.length + 2)) (strBytes "\r\n") = none :=
        (bfind_eq_none_iff _ _).mpr habs
      simp [findHeader, hi, hnone]
    · intro j hj
      refine ⟨by simp [findHeader, hi, hj], ?_, ?_⟩
      · have hd1 := bfind_decomp head (header ++ strBytes ": ") i hi
        have hd2 := bfind_decomp (head.drop (i + header.length + 2))
          (strBytes "\r\n") j hj
        have hsep2 : (strBytes ": ").length = 2 := by rfl
        have hlen1 : (header ++ strBytes ": ").length = header.length + 2 := by
          rw [List.length_append, hsep2]
        have hlen2 : (strBytes "\r\n").length = 2 := by rfl
        rw [hlen1] at hd1
        rw [hlen2] at hd2
        have hdd : (head.drop i).drop (header.length + 2)
            = head.drop (i + header.length + 2) := by
          rw [List.drop_drop, Nat.add_assoc]
        rw [hdd] at hd1
        conv_lhs => rw [hd1]
        conv_lhs => rw [hd2]
        simp [List.append_assoc]
      · exact bfind_take_no_occ (head.drop (i + header.length + 2))
          (strBytes "\r\n") j (by decide) hj

/-- C8 witness: on `"X: v\r\nZ"` with header `"X"`, both delimiters are
found and the returned value is the slice between them. -/
theorem c8_witness :
    findHeader (strBytes "X: v\r\nZ") (strBytes "X")
      = ((strBytes "X: v\r\nZ").drop (0 + (strBytes "X").length + 2)).take 1 :=
  (((c8_findHeader_total (strBytes "X: v\r\nZ") (strBytes "X")).2 0
      (by decide)).2 1 (by decide)).1

/-! ## Claim C9: a client that closes without sending -/

/-- C9: when the initial peek comes back empty, the handler's whole trace
is the final `close()` — nothing is written to the client, no upstream
connection is attempted, nothing is delivered anywhere, and no error is
logged. -/
theorem c9_empty_peek_silent (inp : ConnInput) (h : inp.peek = []) :
    run_handler inp = [Ev.closeConn]
      ∧ clientWrites (run_handler inp) = []
      ∧ connectsOf (run_handler inp) = []
      ∧ deliveredToTarget (run_handler inp) = [] := by
  have hr := run_handler_empty_peek inp h
  refine ⟨hr, ?_, ?_, ?_⟩ <;> rw [hr] <;> rfl

/-- C9 witness: the concrete client [inpC9] that closes at once. -/
theorem c9_witness :
    run_handler inpC9 = [Ev.closeConn] :=
  (c9_empty_peek_silent inpC9 rfl).1

/-! ## Claim C10: `ConnectionHandler.close` -/

/-- C10: after any call to `close` both flags are `True`; a repeated call —
whatever the shutdown oracles did or do — performs no further socket
operation and leaves the state unchanged; and the embedding is a total
function (the bare `except: pass` handlers swallow every error, so no call
raises). -/
theorem c10_close_idempotent (s : HState) (fc ft fc2 ft2 : Bool) :
    (ConnectionHandler_close s fc ft).1.clientClosed = true
      ∧ (ConnectionHandler_close s fc ft).1.targetClosed = true
      ∧ ConnectionHandler_close (ConnectionHandler_close s fc ft).1 fc2 ft2
          = ((ConnectionHandler_close s fc ft).1, []) := by
  simp [ConnectionHandler_close]

end ProxyMenu
